import Mathlib

/-!
Formal model of the fathom deep-research engine (TypeScript sources:
src/core/engine.ts, src/services/search/ddg.ts, src/services/scraper/fetcher.ts,
src/utils/screener.ts, src/cli/index.ts).

JavaScript strings are modelled as Lean `String` / `List Char`; `JSON.parse` is
modelled by an executable recursive-descent JSON reader; thrown exceptions are
modelled with `Option`/`Except`; the cooperatively scheduled `p-limit` pools are
modelled by in-order sequential execution (the behaviour of the code at
concurrency 1, and of any schedule for the properties proved here, since every
mutation of shared state happens atomically between await points).  External
providers (the LLM endpoint, the DuckDuckGo search backend and the page
scraper) are inputs of the model: an `Env` supplies the answer of each provider
call, indexed by the position of the call in the global call trace, so every
possible sequence of provider responses is representable.
-/

/-! ## Strings: JavaScript-flavoured helpers -/

/-- Model of the character class recognised by JavaScript `trim` and `\s`
(the code points that actually occur in the repository data are covered). -/
def jsWs (c : Char) : Bool :=
  c = ' ' || c = '\t' || c = '\n' || c = '\r' || c = '\x0b' || c = '\x0c' ||
  c = '\xa0' || c = '\uFEFF'

/-- Model of JavaScript `String.prototype.trim` on character lists. -/
def jsTrim (l : List Char) : List Char :=
  ((l.dropWhile jsWs).reverse.dropWhile jsWs).reverse

/-- Model of JavaScript `String.prototype.trim` on strings. -/
def strTrim (s : String) : String := String.mk (jsTrim s.data)

/-- Does the character list start with the given pattern list? -/
def strStartsWith : List Char → List Char → Bool
  | _, [] => true
  | [], _ :: _ => false
  | c :: l, p :: ps => c == p && strStartsWith l ps

/-- Does the character list contain the pattern list as a contiguous chunk? -/
def strHasAt : List Char → List Char → Bool
  | l, sub => strStartsWith l sub ||
    (match l with
     | [] => false
     | _ :: t => strHasAt t sub)

/-- Model of JavaScript `String.prototype.includes`. -/
def jsIncludes (s sub : String) : Bool := strHasAt s.data sub.data

/-- Model of JavaScript `content.substring(0, n)` (first `n` code units,
modelled as characters). -/
def jsSubstringTo (s : String) (n : Nat) : String := String.mk (s.data.take n)

/-! ## JSON values and a model of `JSON.parse`

`JSON.parse` is a JavaScript builtin; it is modelled here by an executable
recursive-descent reader of the standard JSON grammar.  Numbers keep their
source lexeme (their numeric value is never inspected by the repository). -/

inductive JsonValue where
  | jnull : JsonValue
  | jbool : Bool → JsonValue
  | jnum : String → JsonValue
  | jstr : String → JsonValue
  | jarr : List JsonValue → JsonValue
  | jobj : List (String × JsonValue) → JsonValue

/-- JSON insignificant whitespace (space, tab, newline, carriage return). -/
def jsonWs (c : Char) : Bool := c = ' ' || c = '\t' || c = '\n' || c = '\r'

/-- Drop leading JSON whitespace. -/
def skipWs (l : List Char) : List Char := l.dropWhile jsonWs

/-- Hexadecimal digit value of a character, if any. -/
def hexVal (c : Char) : Option Nat :=
  let n := c.toNat
  if 48 ≤ n ∧ n ≤ 57 then some (n - 48)
  else if 97 ≤ n ∧ n ≤ 102 then some (n - 87)
  else if 65 ≤ n ∧ n ≤ 70 then some (n - 55)
  else none

/-- Single-character JSON string escapes. -/
def escChar (e : Char) : Option Char :=
  if e = '\x22' then some ('\x22')
  else if e = '\\' then some ('\\')
  else if e = '/' then some ('/')
  else if e = 'b' then some ('\x08')
  else if e = 'f' then some ('\x0c')
  else if e = 'n' then some ('\n')
  else if e = 'r' then some ('\r')
  else if e = 't' then some ('\t')
  else none

/-- Read the body of a JSON string literal (after the opening quote); returns
the decoded characters and the remaining input. -/
def pStringChars : List Char → Option (List Char × List Char)
  | [] => none
  | c :: rest =>
    if c = '\x22' then some ([], rest)
    else if c = '\\' then
      match rest with
      | [] => none
      | e :: rest2 =>
        if e = 'u' then
          match rest2 with
          | h1 :: h2 :: h3 :: h4 :: rest3 =>
            match hexVal h1, hexVal h2, hexVal h3, hexVal h4 with
            | some a, some b, some c2, some d =>
              match pStringChars rest3 with
              | some (cs, r) =>
                some (Char.ofNat (((a * 16 + b) * 16 + c2) * 16 + d) :: cs, r)
              | none => none
            | _, _, _, _ => none
          | _ => none
        else
          match escChar e with
          | some c2 =>
            match pStringChars rest2 with
            | some (cs, r) => some (c2 :: cs, r)
            | none => none
          | none => none
    else if c.toNat < 32 then none
    else
      match pStringChars rest with
      | some (cs, r) => some (c :: cs, r)
      | none => none

/-- Longest digit run at the front of the input. -/
def takeDigits (l : List Char) : List Char × List Char := l.span (fun c => c.isDigit)

/-- Integer part of a JSON number (no leading zeros). -/
def lexIntPart : List Char → Option (List Char × List Char)
  | '0' :: rest => some (['0'], rest)
  | c :: rest =>
    if c.isDigit then
      let (ds, r) := takeDigits rest
      some (c :: ds, r)
    else none
  | [] => none

/-- Optional fraction part of a JSON number. -/
def lexFrac : List Char → Option (List Char × List Char)
  | '.' :: rest =>
    let (ds, r) := takeDigits rest
    if ds.isEmpty then none else some ('.' :: ds, r)
  | l => some ([], l)

/-- Optional exponent part of a JSON number. -/
def lexExp : List Char → Option (List Char × List Char)
  | c :: rest =>
    if c = 'e' || c = 'E' then
      match rest with
      | s :: rest2 =>
        if s = '+' || s = '-' then
          let (ds, r) := takeDigits rest2
          if ds.isEmpty then none else some (c :: s :: ds, r)
        else
          let (ds, r) := takeDigits rest
          if ds.isEmpty then none else some (c :: ds, r)
      | [] => none
    else some ([], c :: rest)
  | [] => some ([], [])

/-- JSON number token; keeps the lexeme. -/
def lexNumber (l : List Char) : Option (JsonValue × List Char) :=
  let (sign, l1) :=
    match l with
    | '-' :: rest => ((['-'] : List Char), rest)
    | _ => (([] : List Char), l)
  match lexIntPart l1 with
  | none => none
  | some (ip, l2) =>
    match lexFrac l2 with
    | none => none
    | some (fp, l3) =>
      match lexExp l3 with
      | none => none
      | some (ep, l4) => some (JsonValue.jnum (String.mk (sign ++ ip ++ fp ++ ep)), l4)

mutual

/-- Read one JSON value; `fuel` bounds the number of reader steps (see
`jsonParseChars` for why the initial fuel never runs out). -/
def pValue : Nat → List Char → Option (JsonValue × List Char)
  | 0, _ => none
  | fuel + 1, input =>
    match skipWs input with
    | [] => none
    | c :: rest =>
      if c = '\x7b' then pObject fuel rest
      else if c = '[' then pArray fuel rest
      else if c = '\x22' then
        match pStringChars rest with
        | some (cs, r) => some (JsonValue.jstr (String.mk cs), r)
        | none => none
      else if c = 't' then
        match rest with
        | 'r' :: 'u' :: 'e' :: r => some (JsonValue.jbool true, r)
        | _ => none
      else if c = 'f' then
        match rest with
        | 'a' :: 'l' :: 's' :: 'e' :: r => some (JsonValue.jbool false, r)
        | _ => none
      else if c = 'n' then
        match rest with
        | 'u' :: 'l' :: 'l' :: r => some (JsonValue.jnull, r)
        | _ => none
      else lexNumber (c :: rest)

/-- Read the inside of a JSON object (after the opening brace). -/
def pObject : Nat → List Char → Option (JsonValue × List Char)
  | 0, _ => none
  | fuel + 1, input =>
    match skipWs input with
    | '\x7d' :: r => some (JsonValue.jobj [], r)
    | _ => pMembers fuel input []

/-- Read one or more `"key": value` members followed by `,` or the closing
brace. -/
def pMembers : Nat → List Char → List (String × JsonValue) → Option (JsonValue × List Char)
  | 0, _, _ => none
  | fuel + 1, input, acc =>
    match skipWs input with
    | '\x22' :: rest =>
      match pStringChars rest with
      | some (key, r1) =>
        match skipWs r1 with
        | ':' :: r2 =>
          match pValue fuel r2 with
          | some (v, r3) =>
            match skipWs r3 with
            | ',' :: r4 => pMembers fuel r4 (acc ++ [(String.mk key, v)])
            | '\x7d' :: r4 => some (JsonValue.jobj (acc ++ [(String.mk key, v)]), r4)
            | _ => none
          | none => none
        | _ => none
      | none => none
    | _ => none

/-- Read the inside of a JSON array (after the opening bracket). -/
def pArray : Nat → List Char → Option (JsonValue × List Char)
  | 0, _ => none
  | fuel + 1, input =>
    match skipWs input with
    | ']' :: r => some (JsonValue.jarr [], r)
    | _ => pElements fuel input []

/-- Read one or more array elements followed by `,` or the closing bracket. -/
def pElements : Nat → List Char → List JsonValue → Option (JsonValue × List Char)
  | 0, _, _ => none
  | fuel + 1, input, acc =>
    match pValue fuel input with
    | some (v, r1) =>
      match skipWs r1 with
      | ',' :: r2 => pElements fuel r2 (acc ++ [v])
      | ']' :: r2 => some (JsonValue.jarr (acc ++ [v]), r2)
      | _ => none
    | none => none

end

/-- Model of `JSON.parse` on character lists: one value surrounded by
whitespace, nothing else.  Every step of the reader either consumes a
character or is one of at most two fuel-free hand-offs after consuming an
opening bracket, so `3 * length + 3` fuel never runs out on a parseable
input. -/
def jsonParseChars (l : List Char) : Option JsonValue :=
  match pValue (3 * l.length + 3) l with
  | some (v, rest) => if (skipWs rest).isEmpty then some v else none
  | none => none

/-- Model of `JSON.parse` on strings. -/
def jsonParse (s : String) : Option JsonValue := jsonParseChars s.data

/-! ## The tolerant structured-output reader (`parseModelJsonOutput` in
src/services/search/ddg.ts) -/

/-- Split the input at the first occurrence of a triple-backtick fence:
returns the characters before the fence and the characters after it. -/
def fenceSplit : List Char → Option (List Char × List Char)
  | '\x60' :: '\x60' :: '\x60' :: r => some ([], r)
  | c :: rest =>
    match fenceSplit rest with
    | some (a, b) => some (c :: a, b)
    | none => none
  | [] => none

/-- Skip a case-insensitive `json` tag standing immediately after an opening
fence (the `(?:json)?` group of the fenced-block regular expression). -/
def skipJsonTag (l : List Char) : List Char :=
  match l with
  | a :: b :: c :: d :: r =>
    if a.toLower = 'j' && b.toLower = 's' && c.toLower = 'o' && d.toLower = 'n' then r
    else l
  | _ => l

/-- All fenced-block captures of the regular expression
followed by `matchAll`, in order of appearance: successive fence pairs,
each capture being the text between the (tag-stripped) opening fence and the
next closing fence.  The leading/trailing `\s*` of the pattern is immaterial
because the engine trims every capture before use. -/
def fencedBlocksAux : Nat → List Char → List (List Char)
  | 0, _ => []
  | fuel + 1, l =>
    match fenceSplit l with
    | none => []
    | some (_, afterOpen) =>
      match fenceSplit (skipJsonTag afterOpen) with
      | none => []
      | some (content, rest) => content :: fencedBlocksAux fuel rest

/-- Fenced-block captures of a character list. -/
def fencedBlocks (l : List Char) : List (List Char) := fencedBlocksAux (l.length + 1) l

/-- Try `JSON.parse` on each trimmed fenced-block capture in order, skipping
empty captures, returning the first success (the fenced-block loop of
`parseModelJsonOutput`). -/
def tryBlocks : List (List Char) → Option JsonValue
  | [] => none
  | b :: rest =>
    let cand := jsTrim b
    if cand.isEmpty then tryBlocks rest
    else
      match jsonParseChars cand with
      | some v => some v
      | none => tryBlocks rest

/-- Character loop of `extractFirstJsonValue`: walks the input tracking
string-literal state (`inString`, `escaping`) and, once an opening brace or
bracket is seen, the nesting depth of that same bracket family; `st` holds
the opening/closing pair and current depth, `acc` the characters of the
candidate slice in reverse. -/
def extractAux : List Char → Bool → Bool → Option (Char × Char × Nat) → List Char → Option (List Char)
  | [], _, _, _, _ => none
  | ch :: rest, inString, escaping, st, acc =>
    if inString then
      let acc1 := if st.isSome then ch :: acc else acc
      if escaping then extractAux rest true false st acc1
      else if ch = '\\' then extractAux rest true true st acc1
      else if ch = '\x22' then extractAux rest false false st acc1
      else extractAux rest true false st acc1
    else if ch = '\x22' then
      extractAux rest true false st (if st.isSome then ch :: acc else acc)
    else
      match st with
      | none =>
        if ch = '\x7b' then extractAux rest false false (some ('\x7b', '\x7d', 1)) [ch]
        else if ch = '[' then extractAux rest false false (some ('[', ']', 1)) [ch]
        else extractAux rest false false none acc
      | some (op, cl, depth) =>
        if ch = op then extractAux rest false false (some (op, cl, depth + 1)) (ch :: acc)
        else if ch = cl then
          if depth = 1 then some (ch :: acc).reverse
          else extractAux rest false false (some (op, cl, depth - 1)) (ch :: acc)
        else extractAux rest false false (some (op, cl, depth)) (ch :: acc)

/-- Model of `extractFirstJsonValue` (src/services/search/ddg.ts): the first
bracket-balanced JSON-object or JSON-array slice of the input, ignoring
brackets inside string literals and escaped characters, or `none`. -/
def extractFirstJsonValue (l : List Char) : Option (List Char) :=
  extractAux l false false none []

/-- Model of `parseModelJsonOutput` (src/services/search/ddg.ts).  Stage 1:
`JSON.parse` of the trimmed input.  Stage 2: each fenced code block in order.
Stage 3: `JSON.parse` of the first balanced slice found by
`extractFirstJsonValue`.  `none` models the thrown `Unable to parse JSON from
model response` (or a stage-3 parse failure, which also throws). -/
def parseModelJsonOutputChars (raw : List Char) : Option JsonValue :=
  let trimmed := jsTrim raw
  match jsonParseChars trimmed with
  | some v => some v
  | none =>
    match tryBlocks (fencedBlocks trimmed) with
    | some v => some v
    | none =>
      match extractFirstJsonValue trimmed with
      | some s => jsonParseChars s
      | none => none

/-- Model of `parseModelJsonOutput` on strings. -/
def parseModelJsonOutput (raw : String) : Option JsonValue :=
  parseModelJsonOutputChars raw.data

/-! ## Concrete inputs for the tolerant-reader examples -/

/-- Example input: a fenced `json` code block. -/
def exFenced : String := "```json\n\x7b\"queries\":[\"x\"]\x7d\n```"

/-- Expected value of the fenced example. -/
def exFencedVal : JsonValue :=
  JsonValue.jobj [("queries", JsonValue.jarr [JsonValue.jstr ("x")])]

/-- Example input: a JSON object embedded in prose. -/
def exProse : String :=
  "Sure! \x7b\"learnings\":[\"a\"],\"followUpQuestions\":[]\x7d Thanks."

/-- The object slice inside `exProse`. -/
def exProseSlice : String := "\x7b\"learnings\":[\"a\"],\"followUpQuestions\":[]\x7d"

/-- Expected value of the prose example. -/
def exProseVal : JsonValue :=
  JsonValue.jobj [("learnings", JsonValue.jarr [JsonValue.jstr ("a")]),
    ("followUpQuestions", JsonValue.jarr [])]

/-! ## Screener (src/utils/screener.ts)

A compiled case-insensitive `RegExp` is modelled as the boolean predicate
given by its `test` method. -/

/-- The Screener holds the compiled deny and allow pattern lists given to its
constructor (`blacklistPatterns`, `whitelistPatterns`). -/
structure Screener where
  blacklist : List (String → Bool)
  whitelist : List (String → Bool)

/-- The fixed default deny substring set of `Screener.isAllowed`. -/
def defaultBlacklist : List String :=
  ["youtube.com", "facebook.com", "instagram.com", "twitter.com", "x.com",
   "linkedin.com", "pinterest.com", "tiktok.com", "duckduckgo.com",
   "signup", "login", "register", "signin"]

/-- Model of `Screener.isAllowed`: (1) with a non-empty whitelist the URL must
match at least one allow pattern; (2) the URL must not contain any default
deny substring; (3) the URL must not match any configured deny pattern;
(4) otherwise allowed. -/
def Screener.isAllowed (sc : Screener) (url : String) : Bool :=
  if sc.whitelist.length > 0 && !(sc.whitelist.any (fun r => r url)) then false
  else if defaultBlacklist.any (fun s => jsIncludes url s) then false
  else if sc.blacklist.length > 0 && sc.blacklist.any (fun r => r url) then false
  else true

/-! ## Engine data model (src/core/engine.ts) -/

/-- Token usage statistics accumulated by the engine. -/
structure TokenUsage where
  prompt : Nat
  completion : Nat
  total : Nat

/-- A usage record as reported by the LLM provider for one call. -/
structure Usage where
  prompt_tokens : Nat
  completion_tokens : Nat
  total_tokens : Nat

/-- Configuration of the engine; `depth` is an integer as parsed from the
command line, the remaining fields are non-negative counts. -/
structure ResearchConfig where
  depth : Int
  breadth : Nat
  concurrency : Nat
  learningsPerChunk : Nat
  maxSearchResultsPerQuery : Nat

/-- An extracted learning with its provenance. -/
structure Learning where
  text : String
  sourceUrl : String
  sourceQuery : String

/-- One search-provider result row. -/
structure SearchResult where
  title : String
  href : String
  body : String

/-- The mutable state of one run (`this.state` of the engine); the JavaScript
`Set` of visited URLs is modelled as a duplicate-free insertion-ordered
list. -/
structure ResearchState where
  learnings : List Learning
  visitedUrls : List String
  tokenUsage : TokenUsage

/-- Structured log events emitted by the engine. -/
inductive LogEvent where
  | report_generation (prompt systemPrompt userMessage : String)
  | query_generated (depth : Int) (count : Nat) (queries : List String)
  | search (query : String) (results_count : Nat)
  | scrape (url : String) (status : String)
  | learnings (url : String) (count : Nat) (learnings : List String)
  | error (message : String)

/-- One outbound provider call made by the engine, in the order issued. -/
inductive ProviderCall where
  | structuredGen (userMessage systemPrompt : String)
  | textGen (userMessage systemPrompt : String)
  | searchQuery (query : String)
  | fetchUrl (url : String)

/-- Engine state together with the observable trace: emitted log events and
issued provider calls. -/
structure RunTrace where
  st : ResearchState
  events : List LogEvent
  calls : List ProviderCall

/-- Shape of the structured query-generation result (`SerpQueriesSchema`). -/
structure SerpQueries where
  queries : List String

/-- Shape of the structured extraction result (`LearningsSchema`). -/
structure LearningsResult where
  learnings : List String
  followUpQuestions : List String

/-- The external world: each provider answer is a function of the position of
the call in the global call trace and of the call arguments, so any sequence
of provider responses is representable.  `Except.error` models a thrown
provider error; the search provider never throws (it returns an empty list)
and the scraper never throws (it returns an empty string). -/
structure Env where
  serpGen : Nat → String → String → Except String (SerpQueries × Option Usage)
  extractGen : Nat → String → String → Except String (LearningsResult × Option Usage)
  textGen : Nat → String → String → Except String (String × Option Usage)
  searchProv : Nat → String → List SearchResult
  fetchProv : Nat → String → String
  currentDate : String

/-- Append a log event (the `log`/`emit` call of the engine). -/
def logEvent (ctx : RunTrace) (e : LogEvent) : RunTrace :=
  { ctx with events := ctx.events ++ [e] }

/-- Record an outbound provider call. -/
def recordCall (ctx : RunTrace) (c : ProviderCall) : RunTrace :=
  { ctx with calls := ctx.calls ++ [c] }

/-- Model of `updateUsage`: add the three reported token counters onto the
accumulator; an absent usage record changes nothing. -/
def updateUsage (t : TokenUsage) (usage : Option Usage) : TokenUsage :=
  match usage with
  | none => t
  | some u =>
    { prompt := t.prompt + u.prompt_tokens,
      completion := t.completion + u.completion_tokens,
      total := t.total + u.total_tokens }

/-- Apply `updateUsage` inside a run trace. -/
def applyUsage (ctx : RunTrace) (usage : Option Usage) : RunTrace :=
  { ctx with st := { ctx.st with tokenUsage := updateUsage ctx.st.tokenUsage usage } }

/-- `updateUsage` folded over a list of reported usage records. -/
def applyUsages (us : List Usage) (t : TokenUsage) : TokenUsage :=
  us.foldl (fun acc u => updateUsage acc (some u)) t

/-- JavaScript `Set.prototype.add` on the insertion-ordered list model. -/
def setAdd (l : List String) (x : String) : List String :=
  if x ∈ l then l else l ++ [x]

/-! ## Engine prompts (exact template-literal transcriptions) -/

/-- The learnings digest interpolated into the query-generation prompt. -/
def learningsDigest (ls : List Learning) : String :=
  if ls.length > 0 then
    String.intercalate ("\n")
      (ls.map (fun l => "- " ++ l.text ++ " (Source: " ++ l.sourceUrl ++ ")"))
  else ("None")

/-- System prompt of `generateQueries`. -/
def serpSystemPrompt (date : String) : String :=
  "You are an expert researcher. Current Date: " ++ date ++
  ". Generate search queries to investigate the given topic."

/-- User message of `generateQueries`. -/
def queriesUserMessage (prompt : String) (ls : List Learning) (numQueries : Nat) : String :=
  "\nTopic: " ++ prompt ++ "\n    \n    Previous Learnings:\n    " ++ learningsDigest ls ++
  "\n    \n    Generate " ++ toString numQueries ++
  " unique search queries to find more information.\n    Return strictly JSON: \x7b \"queries\": [\"query1\", \"query2\", ...] \x7d\n"

/-- System prompt of `processContent`. -/
def extractSystemPrompt (date : String) : String :=
  "You are a research assistant. Current Date: " ++ date ++
  ". Extract key facts and follow-up questions from the text."

/-- User message of `processContent`; the page content enters only through
`content.substring(0, 25000)`. -/
def processUserMessage (cfg : ResearchConfig) (query content : String) : String :=
  "\nQuery: " ++ query ++ "\n\nContent:\n    " ++ jsSubstringTo content 25000 ++
  " // Truncate to avoid context overflow\n    \n    Extract up to " ++
  toString cfg.learningsPerChunk ++
  " unique key learnings / facts and up to 3 follow - up research questions.\n    Return strictly JSON: \x7b \"learnings\": [\"...\"], \"followUpQuestions\": [\"...\"] \x7d\n"

/-- System prompt of `generateReport`. -/
def reportSystemPrompt (date : String) : String :=
  "You are a professional report writer. Current Date: " ++ date

/-- User message of `generateReport`. -/
def reportUserMessage (prompt : String) (ls : List Learning) : String :=
  "Topic: " ++ prompt ++ "\n      Research Learnings:\n      " ++
  String.intercalate ("\n")
    (ls.map (fun l => "- " ++ l.text ++ "\n  Source: " ++ l.sourceUrl ++
      "\n  Context: Found via \"" ++ l.sourceQuery ++ "\"")) ++
  "\n\n      Write a comprehensive, professional Markdown report roughly 3-5 pages long. \n      Use H1 for title, H2 for sections. \n      Include an Executive Summary at the start.\n\n      CITATION RULES:\n      - You MUST include a \"References\" section at the very end of the report.\n      - You MUST list every source URL used in the References section.\n      - You MUST cite sources in the text using [1], [2], etc.\n      - DO NOT say \"bibliography available upon request\". You must provide the full list of sources here.\n      "

/-! ## Engine operations (src/core/engine.ts) -/

/-- The engine constructs its screener with no patterns (`new Screener()`). -/
def engineScreener : Screener := ⟨[], []⟩

/-- Model of `generateQueries`: one structured-generation call; on success the
returned queries are cut to `numQueries` and usage is accumulated; on failure
an error event is logged and the original prompt is the single fallback
query. -/
def generateQueries (env : Env) (ctx : RunTrace) (prompt : String) (numQueries : Nat) :
    RunTrace × List String :=
  let systemPrompt := serpSystemPrompt env.currentDate
  let userMessage := queriesUserMessage prompt ctx.st.learnings numQueries
  let idx := ctx.calls.length
  let ctx1 := recordCall ctx (ProviderCall.structuredGen userMessage systemPrompt)
  match env.serpGen idx userMessage systemPrompt with
  | Except.ok (result, usage) => (applyUsage ctx1 usage, result.queries.take numQueries)
  | Except.error e =>
    (logEvent ctx1 (LogEvent.error ("Failed to generate queries: " ++ e ++ " ")), [prompt])

/-- Model of `processContent`: one structured-generation call on the
(query, content) pair; extraction failure is caught, logged as an error event
and degraded to zero learnings and zero follow-ups. -/
def processContent (env : Env) (cfg : ResearchConfig) (ctx : RunTrace) (query content : String) :
    RunTrace × LearningsResult :=
  let systemPrompt := extractSystemPrompt env.currentDate
  let userMessage := processUserMessage cfg query content
  let idx := ctx.calls.length
  let ctx1 := recordCall ctx (ProviderCall.structuredGen userMessage systemPrompt)
  match env.extractGen idx userMessage systemPrompt with
  | Except.ok (result, usage) => (applyUsage ctx1 usage, result)
  | Except.error e =>
    (logEvent ctx1 (LogEvent.error ("Failed to process content: " ++ e ++ " ")), ⟨[], []⟩)

/-- One search task of `_researchRecursive`: call the search provider, log the
result count, keep results whose `href` is not already visited and passes the
screener, cut to `maxSearchResultsPerQuery`, then add the surviving hrefs to
the visited set. -/
def searchStep (env : Env) (cfg : ResearchConfig) (ctx : RunTrace) (query : String) :
    RunTrace × (String × List SearchResult) :=
  let idx := ctx.calls.length
  let ctx1 := recordCall ctx (ProviderCall.searchQuery query)
  let results := env.searchProv idx query
  let ctx2 := logEvent ctx1 (LogEvent.search query results.length)
  let newResults :=
    (results.filter
      (fun r => !(ctx2.st.visitedUrls.contains r.href) && engineScreener.isAllowed r.href)).take
      cfg.maxSearchResultsPerQuery
  let visited2 := newResults.foldl (fun vs r => setAdd vs r.href) ctx2.st.visitedUrls
  ({ ctx2 with st := { ctx2.st with visitedUrls := visited2 } }, (query, newResults))

/-- All search tasks of one batch, in query order. -/
def searchPhase (env : Env) (cfg : ResearchConfig) :
    RunTrace → List String → RunTrace × List (String × List SearchResult)
  | ctx, [] => (ctx, [])
  | ctx, query :: qs =>
    let (ctx1, pair) := searchStep env cfg ctx query
    let (ctx2, rest) := searchPhase env cfg ctx1 qs
    (ctx2, pair :: rest)

/-- The value a successful content task contributes (`{...processed,
sourceUrl, sourceQuery}`). -/
structure ProcessedItem where
  learnings : List String
  followUpQuestions : List String
  sourceUrl : String
  sourceQuery : String

/-- One content task of `_researchRecursive`: fetch the page; if the content
is empty or shorter than 100 characters log a failed scrape and contribute
nothing, otherwise log a successful scrape and run structured extraction. -/
def contentStep (env : Env) (cfg : ResearchConfig) (ctx : RunTrace) (query : String)
    (result : SearchResult) : RunTrace × Option ProcessedItem :=
  let idx := ctx.calls.length
  let ctx1 := recordCall ctx (ProviderCall.fetchUrl result.href)
  let content := env.fetchProv idx result.href
  if content == "" || content.data.length < 100 then
    (logEvent ctx1 (LogEvent.scrape result.href ("failed")), none)
  else
    let ctx2 := logEvent ctx1 (LogEvent.scrape result.href ("success"))
    let (ctx3, processed) := processContent env cfg ctx2 query content
    let ctx4 :=
      if processed.learnings.length > 0 then
        logEvent ctx3
          (LogEvent.learnings result.href processed.learnings.length processed.learnings)
      else ctx3
    (ctx4, some ⟨processed.learnings, processed.followUpQuestions, result.href, query⟩)

/-- The content tasks of one query, over its surviving results in order. -/
def contentRun (env : Env) (cfg : ResearchConfig) (query : String) :
    RunTrace → List SearchResult → RunTrace × List (Option ProcessedItem)
  | ctx, [] => (ctx, [])
  | ctx, result :: rs =>
    let (ctx1, item) := contentStep env cfg ctx query result
    let (ctx2, rest) := contentRun env cfg query ctx1 rs
    (ctx2, item :: rest)

/-- All content tasks of one batch: the (query, results) pairs are flattened
in order and processed sequentially. -/
def contentPhase (env : Env) (cfg : ResearchConfig) :
    RunTrace → List (String × List SearchResult) → RunTrace × List (Option ProcessedItem)
  | ctx, [] => (ctx, [])
  | ctx, pair :: ps =>
    let (ctx1, items1) := contentRun env cfg pair.1 ctx pair.2
    let (ctx2, items2) := contentPhase env cfg ctx1 ps
    (ctx2, items1 ++ items2)

/-- Append the learnings of the processed results to the run state, with the
source URL and query of the task that produced them. -/
def collectLearnings (ctx : RunTrace) (processed : List (Option ProcessedItem)) : RunTrace :=
  processed.foldl
    (fun c item =>
      match item with
      | none => c
      | some r =>
        { c with st := { c.st with learnings :=
            c.st.learnings ++ r.learnings.map (fun t => ⟨t, r.sourceUrl, r.sourceQuery⟩) } })
    ctx

/-- All follow-up questions produced across the batch, in order. -/
def collectFollowUps (processed : List (Option ProcessedItem)) : List String :=
  processed.foldl
    (fun acc item =>
      match item with
      | none => acc
      | some r => acc ++ r.followUpQuestions)
    []

/-- One full node of `_researchRecursive` except the recursion: generate
queries, log them, search, fetch and extract, collect learnings; returns the
new trace and the follow-up questions of the batch. -/
def researchBatch (env : Env) (cfg : ResearchConfig) (ctx : RunTrace) (prompt : String)
    (currentDepth : Int) : RunTrace × List String :=
  let (ctx1, queries) := generateQueries env ctx prompt cfg.breadth
  let ctx2 := logEvent ctx1 (LogEvent.query_generated currentDepth queries.length queries)
  let (ctx3, pairs) := searchPhase env cfg ctx2 queries
  let (ctx4, processed) := contentPhase env cfg ctx3 pairs
  (collectLearnings ctx4 processed, collectFollowUps processed)

/-- Model of `_researchRecursive`; the extra fuel argument makes the
recursion structural and always equals at least `currentDepth.toNat`, which
is exact (see `researchRecursive`). -/
def researchAux (env : Env) (cfg : ResearchConfig) : Nat → Int → String → RunTrace → RunTrace
  | 0, _, _, ctx => ctx
  | fuel + 1, currentDepth, prompt, ctx =>
    if currentDepth ≤ 0 then ctx
    else
      let (ctx1, newFollowUps) := researchBatch env cfg ctx prompt currentDepth
      if 1 < currentDepth ∧ 0 < newFollowUps.length then
        (newFollowUps.take cfg.breadth).foldl
          (fun c p => researchAux env cfg fuel (currentDepth - 1) p c) ctx1
      else ctx1

/-- Model of `_researchRecursive(prompt, currentDepth)`. -/
def researchRecursive (env : Env) (cfg : ResearchConfig) (prompt : String) (currentDepth : Int)
    (ctx : RunTrace) : RunTrace :=
  researchAux env cfg currentDepth.toNat currentDepth prompt ctx

/-- Model of `run`: `_researchRecursive(prompt, config.depth)` from the given
trace. -/
def runResearch (env : Env) (cfg : ResearchConfig) (ctx : RunTrace) (prompt : String) : RunTrace :=
  researchRecursive env cfg prompt cfg.depth ctx

/-- Model of `generateReport`: log the report-generation event, call the text
provider once, accumulate usage on success; a provider error propagates. -/
def generateReport (env : Env) (ctx : RunTrace) (prompt : String) :
    RunTrace × Except String String :=
  let systemPrompt := reportSystemPrompt env.currentDate
  let userMessage := reportUserMessage prompt ctx.st.learnings
  let ctx1 := logEvent ctx (LogEvent.report_generation prompt systemPrompt userMessage)
  let idx := ctx1.calls.length
  let ctx2 := recordCall ctx1 (ProviderCall.textGen userMessage systemPrompt)
  match env.textGen idx userMessage systemPrompt with
  | Except.ok (content, usage) => (applyUsage ctx2 usage, Except.ok content)
  | Except.error e => (ctx2, Except.error e)

/-- The engine starts with empty learnings, no visited URLs and zeroed token
usage. -/
def initialTrace : RunTrace := ⟨⟨[], [], ⟨0, 0, 0⟩⟩, [], []⟩

/-! ## Concrete inputs used by witnesses and counterexamples -/

/-- A configuration with depth 2, breadth 2 and permissive limits. -/
def cfgEx : ResearchConfig := ⟨2, 2, 5, 5, 5⟩

/-- An environment whose providers answer trivially. -/
def trivialEnv : Env where
  serpGen := fun _ _ _ => Except.ok (⟨[("qa"), ("qb"), ("qc")]⟩, none)
  extractGen := fun _ _ _ => Except.ok (⟨[], []⟩, none)
  textGen := fun _ _ _ => Except.ok (("report text"), none)
  searchProv := fun _ _ => []
  fetchProv := fun _ _ => ""
  currentDate := "D"

/-- An environment whose structured query generation always throws. -/
def serpFailEnv : Env where
  serpGen := fun _ _ _ => Except.error ("boom")
  extractGen := fun _ _ _ => Except.ok (⟨[], []⟩, none)
  textGen := fun _ _ _ => Except.ok (("report text"), none)
  searchProv := fun _ _ => []
  fetchProv := fun _ _ => ""
  currentDate := "D"

/-- A page body of 120 characters (above the 100-character viability
threshold). -/
def longContent : String := String.mk (List.replicate 120 'a')

/-- An environment serving a long page on one URL and a 4-character page on
every other URL. -/
def fetchEnv : Env where
  serpGen := fun _ _ _ => Except.ok (⟨[]⟩, none)
  extractGen := fun _ _ _ => Except.ok (⟨[("f1")], [("fq1")]⟩, none)
  textGen := fun _ _ _ => Except.ok (("report text"), none)
  searchProv := fun _ _ => []
  fetchProv := fun _ url => if url == ("https://long.example/a") then longContent else ("tiny")
  currentDate := "D"

/-- Search results containing a host-case variant of an already-visited URL
and an exact duplicate within the same result list. -/
def canonEnv : Env where
  serpGen := fun _ _ _ => Except.ok (⟨[]⟩, none)
  extractGen := fun _ _ _ => Except.ok (⟨[], []⟩, none)
  textGen := fun _ _ _ => Except.ok (("report text"), none)
  searchProv := fun _ _ =>
    [⟨("t1"), ("https://Example.org/page"), ("b1")⟩,
     ⟨("t2"), ("https://news.example.net/a"), ("b2")⟩,
     ⟨("t3"), ("https://news.example.net/a"), ("b3")⟩]
  fetchProv := fun _ _ => ""
  currentDate := "D"

/-- A trace that has already visited the all-lowercase form of the first
`canonEnv` result. -/
def canonTrace : RunTrace := ⟨⟨[], [("https://example.org/page")], ⟨0, 0, 0⟩⟩, [], []⟩

/-- A run state holding one learning from a single distinct source URL. -/
def oneSourceTrace : RunTrace :=
  ⟨⟨[⟨("only fact"), ("https://one.example/a"), ("q")⟩], [("https://one.example/a")], ⟨0, 0, 0⟩⟩,
   [], []⟩

/-- Model of the compiled case-insensitive allow pattern
`^https://a\.com`: its `test` accepts exactly the URLs whose lowercased form
starts with the literal. -/
def allowACom : String → Bool :=
  fun url => strStartsWith (url.data.map Char.toLower) (("https://a.com").data)

/-! ## Theorems -/

/-- C8: calling `_researchRecursive(p, d)` with `d ≤ 0` returns immediately:
the whole trace — state (learnings, visited URLs, token usage), events and
provider calls — is returned unchanged, so no query-generation, search or
fetch call is made. -/
theorem researchRecursive_depth_zero (env : Env) (cfg : ResearchConfig) (prompt : String)
    (ctx : RunTrace) (currentDepth : Int) (h : currentDepth ≤ 0) :
    researchRecursive env cfg prompt currentDepth ctx = ctx := by
  unfold researchRecursive
  rw [Int.toNat_of_nonpos h]
  rfl

/-- Witness for C8 at depth 0 on the initial trace. -/
theorem researchRecursive_depth_zero_witness :
    researchRecursive trivialEnv cfgEx ("p") 0 initialTrace = initialTrace :=
  researchRecursive_depth_zero trivialEnv cfgEx ("p") initialTrace 0 (by decide)

/-- C4 counterexample: `updateUsage` adds the provider-reported
`total_tokens` onto `total`, so a single update reporting
`prompt_tokens = 1`, `completion_tokens = 1`, `total_tokens = 5` leaves
`total ≠ prompt + completion`. -/
theorem updateUsage_total_mismatch :
    ¬((updateUsage ⟨0, 0, 0⟩ (some ⟨1, 1, 5⟩)).total =
      (updateUsage ⟨0, 0, 0⟩ (some ⟨1, 1, 5⟩)).prompt +
      (updateUsage ⟨0, 0, 0⟩ (some ⟨1, 1, 5⟩)).completion) := by decide

/-- C4 as amended: provided every reported usage record is internally
consistent (`total_tokens = prompt_tokens + completion_tokens`, which the
OpenAI-compatible providers guarantee), after any sequence of updates from a
consistent accumulator the invariant `total = prompt + completion` holds, and
`prompt`/`completion` are the sums of the reported per-call counters — so
after N calls reporting `p_i`/`c_i` from the zeroed initial accumulator,
`total = Σ p_i + Σ c_i`. -/
theorem tokenUsage_accumulation (us : List Usage) (t : TokenUsage)
    (hc : ∀ u ∈ us, u.total_tokens = u.prompt_tokens + u.completion_tokens)
    (ht : t.total = t.prompt + t.completion) :
    (applyUsages us t).total = (applyUsages us t).prompt + (applyUsages us t).completion ∧
    (applyUsages us t).prompt = t.prompt + (us.map (fun u => u.prompt_tokens)).sum ∧
    (applyUsages us t).completion = t.completion + (us.map (fun u => u.completion_tokens)).sum := by
  induction us generalizing t with
  | nil => simpa [applyUsages] using ht
  | cons u rest ih =>
    have hu : u.total_tokens = u.prompt_tokens + u.completion_tokens :=
      hc u (List.mem_cons_self u rest)
    have hstep : applyUsages (u :: rest) t = applyUsages rest (updateUsage t (some u)) := rfl
    have ht2 : (updateUsage t (some u)).total =
        (updateUsage t (some u)).prompt + (updateUsage t (some u)).completion := by
      simp only [updateUsage]
      omega
    have hrec := ih (updateUsage t (some u)) (fun v hv => hc v (List.mem_cons_of_mem u hv)) ht2
    rw [hstep]
    refine ⟨hrec.1, ?_, ?_⟩
    · rw [hrec.2.1]
      simp only [updateUsage, List.map_cons, List.sum_cons]
      omega
    · rw [hrec.2.2]
      simp only [updateUsage, List.map_cons, List.sum_cons]
      omega

/-- Witness for C4 as amended: two consistent updates from the zeroed
accumulator. -/
theorem tokenUsage_accumulation_witness :
    (applyUsages ([⟨2, 3, 5⟩, ⟨1, 1, 2⟩] : List Usage) ⟨0, 0, 0⟩).total =
      (applyUsages ([⟨2, 3, 5⟩, ⟨1, 1, 2⟩] : List Usage) ⟨0, 0, 0⟩).prompt +
        (applyUsages ([⟨2, 3, 5⟩, ⟨1, 1, 2⟩] : List Usage) ⟨0, 0, 0⟩).completion ∧
    (applyUsages ([⟨2, 3, 5⟩, ⟨1, 1, 2⟩] : List Usage) ⟨0, 0, 0⟩).prompt =
      0 + (([⟨2, 3, 5⟩, ⟨1, 1, 2⟩] : List Usage).map (fun u => u.prompt_tokens)).sum ∧
    (applyUsages ([⟨2, 3, 5⟩, ⟨1, 1, 2⟩] : List Usage) ⟨0, 0, 0⟩).completion =
      0 + (([⟨2, 3, 5⟩, ⟨1, 1, 2⟩] : List Usage).map (fun u => u.completion_tokens)).sum :=
  tokenUsage_accumulation ([⟨2, 3, 5⟩, ⟨1, 1, 2⟩] : List Usage) ⟨0, 0, 0⟩ (by decide) (by decide)

/-- C9: `Screener.isAllowed` evaluates, in order: (1) with a configured
non-empty allow-list, a URL matching no allow pattern is rejected (whatever
the deny-list is); (2) a URL containing a member of the fixed default deny
substring set is rejected; (3) a URL matching a configured deny pattern is
rejected; (4) any other URL is allowed.  In particular, with allow-list
`[^https://a\.com]` a URL from b.com is rejected even with an empty
deny-list, and with no allow-list a URL containing `login` is rejected. -/
theorem screener_isAllowed_spec :
    (∀ (bl wl : List (String → Bool)) (url : String),
      wl ≠ [] → (∀ f ∈ wl, f url = false) →
        (Screener.mk bl wl).isAllowed url = false) ∧
    (∀ (bl wl : List (String → Bool)) (url s : String),
      s ∈ defaultBlacklist → jsIncludes url s = true →
        (Screener.mk bl wl).isAllowed url = false) ∧
    (∀ (bl wl : List (String → Bool)) (url : String) (f : String → Bool),
      f ∈ bl → f url = true →
        (Screener.mk bl wl).isAllowed url = false) ∧
    (∀ (bl wl : List (String → Bool)) (url : String),
      (wl = [] ∨ ∃ f ∈ wl, f url = true) →
      (∀ s ∈ defaultBlacklist, jsIncludes url s = false) →
      (∀ f ∈ bl, f url = false) →
        (Screener.mk bl wl).isAllowed url = true) ∧
    (Screener.mk [] [allowACom]).isAllowed ("https://b.com/x") = false ∧
    (Screener.mk [] []).isAllowed ("https://docs.example/login") = false := by
  refine ⟨?_, ?_, ?_, ?_, rfl, rfl⟩
  · intro bl wl url hne hall
    have hany : wl.any (fun r => r url) = false := by
      rw [List.any_eq_false]
      intro f hf
      simp [hall f hf]
    have hlen : 0 < wl.length := List.length_pos.mpr hne
    simp [Screener.isAllowed, hany, hlen]
  · intro bl wl url s hs hinc
    have hany : defaultBlacklist.any (fun s2 => jsIncludes url s2) = true :=
      List.any_eq_true.mpr ⟨s, hs, hinc⟩
    simp only [Screener.isAllowed]
    split
    · rfl
    · simp [hany]
  · intro bl wl url f hf hfu
    have hany : bl.any (fun r => r url) = true := List.any_eq_true.mpr ⟨f, hf, hfu⟩
    have hlen : 0 < bl.length := List.length_pos.mpr (by rintro rfl; exact absurd hf (by simp))
    simp only [Screener.isAllowed]
    split
    · rfl
    · split
      · rfl
      · simp [hany, hlen]
  · intro bl wl url hwl hds hbl
    have h1 : (decide (wl.length > 0) && !(wl.any fun r => r url)) = false := by
      rcases hwl with h | ⟨f, hf, hfu⟩
      · subst h; rfl
      · have : wl.any (fun r => r url) = true := List.any_eq_true.mpr ⟨f, hf, hfu⟩
        simp [this]
    have h2 : defaultBlacklist.any (fun s => jsIncludes url s) = false := by
      rw [List.any_eq_false]
      intro s hs
      simp [hds s hs]
    have h3 : bl.any (fun r => r url) = false := by
      rw [List.any_eq_false]
      intro f hf
      simp [hbl f hf]
    simp [Screener.isAllowed, h1, h2, h3]

/-- Witness for C9: the concrete allow-list precedence example. -/
theorem screener_isAllowed_spec_witness :
    (Screener.mk [] [allowACom]).isAllowed ("https://b.com/x") = false :=
  screener_isAllowed_spec.1 [] [allowACom] ("https://b.com/x") (by simp)
    (by intro f hf; rw [List.mem_singleton] at hf; subst hf; rfl)

/-- C6: on a successful structured call, `generateQueries` returns the
provider queries cut to at most `numQueries` (the engine passes
`config.breadth`) and logs no error; on a thrown structured call it logs an
error event and returns exactly the one-element list holding the original
prompt. -/
theorem generateQueries_spec (env : Env) (ctx : RunTrace) (prompt : String) (n : Nat) :
    (∀ res usage,
      env.serpGen ctx.calls.length (queriesUserMessage prompt ctx.st.learnings n)
          (serpSystemPrompt env.currentDate) = Except.ok (res, usage) →
        (generateQueries env ctx prompt n).2 = res.queries.take n ∧
        (generateQueries env ctx prompt n).2.length ≤ n ∧
        (generateQueries env ctx prompt n).1.events = ctx.events) ∧
    (∀ e,
      env.serpGen ctx.calls.length (queriesUserMessage prompt ctx.st.learnings n)
          (serpSystemPrompt env.currentDate) = Except.error e →
        (generateQueries env ctx prompt n).2 = [prompt] ∧
        (generateQueries env ctx prompt n).1.events =
          ctx.events ++ [LogEvent.error ("Failed to generate queries: " ++ e ++ " ")]) := by
  constructor
  · intro res usage hok
    have h2 : (generateQueries env ctx prompt n).2 = res.queries.take n := by
      simp [generateQueries, hok]
    have h1 : (generateQueries env ctx prompt n).1.events = ctx.events := by
      simp [generateQueries, hok, applyUsage, recordCall]
    refine ⟨h2, ?_, h1⟩
    rw [h2]
    exact List.length_take_le n res.queries
  · intro e herr
    constructor
    · simp [generateQueries, herr]
    · simp [generateQueries, herr, logEvent, recordCall]

/-- Witness for C6: the failing provider, showing the verbatim-prompt
fallback and the error event. -/
theorem generateQueries_spec_witness :
    (generateQueries serpFailEnv initialTrace ("t") 3).2 = [("t")] ∧
    (generateQueries serpFailEnv initialTrace ("t") 3).1.events =
      initialTrace.events ++ [LogEvent.error ("Failed to generate queries: boom ")] :=
  (generateQueries_spec serpFailEnv initialTrace ("t") 3).2 ("boom") rfl

/-- C10: the extraction prompt built by `processContent` depends on the page
content only through `content.substring(0, 25000)`: two contents agreeing on
their first 25000 characters give identical behaviour, the substring passed
into the prompt never exceeds 25000 characters, and the structured call
recorded carries exactly the prompt built from that substring. -/
theorem processContent_truncates (env : Env) (cfg : ResearchConfig) (ctx : RunTrace)
    (query c1 c2 : String) (h : c1.data.take 25000 = c2.data.take 25000) :
    processContent env cfg ctx query c1 = processContent env cfg ctx query c2 ∧
    (jsSubstringTo c1 25000).data.length ≤ 25000 ∧
    (processContent env cfg ctx query c1).1.calls =
      ctx.calls ++ [ProviderCall.structuredGen (processUserMessage cfg query c1)
        (extractSystemPrompt env.currentDate)] := by
  have hsub : jsSubstringTo c1 25000 = jsSubstringTo c2 25000 := congrArg String.mk h
  have hmsg : processUserMessage cfg query c1 = processUserMessage cfg query c2 := by
    unfold processUserMessage
    rw [hsub]
  refine ⟨?_, ?_, ?_⟩
  · unfold processContent
    rw [hmsg]
  · exact List.length_take_le 25000 c1.data
  · cases henv : env.extractGen ctx.calls.length (processUserMessage cfg query c1)
        (extractSystemPrompt env.currentDate) with
    | ok val => simp [processContent, henv, applyUsage, recordCall]
    | error e => simp [processContent, henv, logEvent, recordCall]

/-- Witness for C10: a 25000-character page and its one-character extension
are processed identically. -/
theorem processContent_truncates_witness :
    processContent trivialEnv cfgEx initialTrace ("q")
        (String.mk (List.replicate 25000 'a')) =
      processContent trivialEnv cfgEx initialTrace ("q")
        (String.mk (List.replicate 25000 'a' ++ ['b'])) ∧
    (jsSubstringTo (String.mk (List.replicate 25000 'a')) 25000).data.length ≤ 25000 ∧
    (processContent trivialEnv cfgEx initialTrace ("q")
        (String.mk (List.replicate 25000 'a'))).1.calls =
      initialTrace.calls ++
        [ProviderCall.structuredGen
          (processUserMessage cfgEx ("q") (String.mk (List.replicate 25000 'a')))
          (extractSystemPrompt trivialEnv.currentDate)] :=
  processContent_truncates trivialEnv cfgEx initialTrace ("q")
    (String.mk (List.replicate 25000 'a')) (String.mk (List.replicate 25000 'a' ++ ['b']))
    (by
      show (List.replicate 25000 'a').take 25000 = (List.replicate 25000 'a' ++ ['b']).take 25000
      rw [List.take_append_of_le_length (by rw [List.length_replicate])])

/-- C1 counterexample: with a run state holding a single distinct source,
`generateReport` does not fail — it issues the text-generation provider call
and returns the provider content (no diversity guard or
`InsufficientSourcesError` exists in the code). -/
theorem generateReport_calls_provider_with_one_source :
    oneSourceTrace.st.learnings.length = 1 ∧
    (generateReport trivialEnv oneSourceTrace ("topic")).1.calls =
      oneSourceTrace.calls ++
        [ProviderCall.textGen (reportUserMessage ("topic") oneSourceTrace.st.learnings)
          (reportSystemPrompt trivialEnv.currentDate)] ∧
    (generateReport trivialEnv oneSourceTrace ("topic")).2 = Except.ok ("report text") :=
  ⟨rfl, rfl, rfl⟩

/-- C1 as amended: `generateReport` performs no diversity check at all: for
every state it logs one report-generation event, issues exactly one
text-generation call built from the accumulated learnings, and returns the
provider outcome (content on success, the propagated error on failure),
regardless of how many distinct sources the state holds. -/
theorem generateReport_no_diversity_gate (env : Env) (ctx : RunTrace) (prompt : String) :
    (generateReport env ctx prompt).1.calls =
      ctx.calls ++ [ProviderCall.textGen (reportUserMessage prompt ctx.st.learnings)
        (reportSystemPrompt env.currentDate)] ∧
    (generateReport env ctx prompt).1.events =
      ctx.events ++ [LogEvent.report_generation prompt (reportSystemPrompt env.currentDate)
        (reportUserMessage prompt ctx.st.learnings)] ∧
    (∀ content usage,
      env.textGen ctx.calls.length (reportUserMessage prompt ctx.st.learnings)
          (reportSystemPrompt env.currentDate) = Except.ok (content, usage) →
        (generateReport env ctx prompt).2 = Except.ok content) ∧
    (∀ e,
      env.textGen ctx.calls.length (reportUserMessage prompt ctx.st.learnings)
          (reportSystemPrompt env.currentDate) = Except.error e →
        (generateReport env ctx prompt).2 = Except.error e) := by
  have hidx : (logEvent ctx (LogEvent.report_generation prompt
      (reportSystemPrompt env.currentDate)
      (reportUserMessage prompt ctx.st.learnings))).calls.length = ctx.calls.length := by
    simp [logEvent]
  refine ⟨?_, ?_, ?_, ?_⟩
  · cases henv : env.textGen ctx.calls.length (reportUserMessage prompt ctx.st.learnings)
        (reportSystemPrompt env.currentDate) with
    | ok val => simp [generateReport, logEvent, hidx, henv, applyUsage, recordCall]
    | error e => simp [generateReport, logEvent, hidx, henv, recordCall]
  · cases henv : env.textGen ctx.calls.length (reportUserMessage prompt ctx.st.learnings)
        (reportSystemPrompt env.currentDate) with
    | ok val => simp [generateReport, logEvent, hidx, henv, applyUsage, recordCall]
    | error e => simp [generateReport, logEvent, hidx, henv, recordCall]
  · intro content usage henv
    simp [generateReport, logEvent, hidx, henv]
  · intro e henv
    simp [generateReport, logEvent, hidx, henv]

/-- Witness for C1 as amended: the success clause at a one-source state. -/
theorem generateReport_no_diversity_gate_witness :
    (generateReport trivialEnv oneSourceTrace ("t2")).2 = Except.ok ("report text") :=
  (generateReport_no_diversity_gate trivialEnv oneSourceTrace ("t2")).2.2.1
    ("report text") none rfl

/-- The viability test of a fetched page collapses to its length test, since
the empty string has length 0 < 100. -/
theorem content_short_cond (content : String) :
    (content == "" || decide (content.data.length < 100)) =
      decide (content.data.length < 100) := by
  cases heq : content == ""
  · simp
  · have hc : content = "" := eq_of_beq heq
    subst hc
    rfl

/-- Helper: whatever the extraction provider answers, `processContent`
records exactly one structured-generation call carrying the truncated
prompt. -/
theorem processContent_calls_eq (env : Env) (cfg : ResearchConfig) (ctx : RunTrace)
    (query content : String) :
    (processContent env cfg ctx query content).1.calls =
      ctx.calls ++ [ProviderCall.structuredGen (processUserMessage cfg query content)
        (extractSystemPrompt env.currentDate)] := by
  cases henv : env.extractGen ctx.calls.length (processUserMessage cfg query content)
      (extractSystemPrompt env.currentDate) with
  | ok val => simp [processContent, henv, applyUsage, recordCall]
  | error e => simp [processContent, henv, logEvent, recordCall]

/-- Helper: `processContent` only appends to the event log. -/
theorem processContent_events_ext (env : Env) (cfg : ResearchConfig) (ctx : RunTrace)
    (query content : String) :
    ∃ rest, (processContent env cfg ctx query content).1.events = ctx.events ++ rest := by
  cases henv : env.extractGen ctx.calls.length (processUserMessage cfg query content)
      (extractSystemPrompt env.currentDate) with
  | ok val => exact ⟨[], by simp [processContent, henv, applyUsage, recordCall]⟩
  | error e =>
    exact ⟨[LogEvent.error ("Failed to process content: " ++ e ++ " ")],
      by simp [processContent, henv, logEvent, recordCall]⟩

/-- C7: for every fetched page, if the returned content is shorter than 100
characters (in particular absent, i.e. empty) the engine logs a failed scrape
and discards the page — the trace shows only the fetch call, no extraction
call, and the task contributes `none` (zero learnings); otherwise it logs a
successful scrape and requests structured extraction on the (query, content)
pair, whose prompt asks for up to `learningsPerChunk` learnings and up to 3
follow-up questions. -/
theorem contentStep_spec (env : Env) (cfg : ResearchConfig) (ctx : RunTrace) (query : String)
    (result : SearchResult) :
    ((env.fetchProv ctx.calls.length result.href).data.length < 100 →
      contentStep env cfg ctx query result =
        (logEvent (recordCall ctx (ProviderCall.fetchUrl result.href))
          (LogEvent.scrape result.href ("failed")), none)) ∧
    (¬(env.fetchProv ctx.calls.length result.href).data.length < 100 →
      (contentStep env cfg ctx query result).1.calls =
        ctx.calls ++ [ProviderCall.fetchUrl result.href,
          ProviderCall.structuredGen
            (processUserMessage cfg query (env.fetchProv ctx.calls.length result.href))
            (extractSystemPrompt env.currentDate)] ∧
      (∃ rest, (contentStep env cfg ctx query result).1.events =
        ctx.events ++ LogEvent.scrape result.href ("success") :: rest)) := by
  constructor
  · intro h
    have hlen : (env.fetchProv ctx.calls.length result.href).length < 100 := h
    simp [contentStep, hlen, logEvent, recordCall]
  · intro h
    have hlen : ¬(env.fetchProv ctx.calls.length result.href).length < 100 := h
    have hne : ¬(env.fetchProv ctx.calls.length result.href = "") := by
      intro he
      apply hlen
      rw [he]
      decide
    rcases hpc : processContent env cfg
        (logEvent (recordCall ctx (ProviderCall.fetchUrl result.href))
          (LogEvent.scrape result.href ("success"))) query
        (env.fetchProv ctx.calls.length result.href) with ⟨ctx3, processed⟩
    have h1 := processContent_calls_eq env cfg
      (logEvent (recordCall ctx (ProviderCall.fetchUrl result.href))
        (LogEvent.scrape result.href ("success"))) query
      (env.fetchProv ctx.calls.length result.href)
    rw [hpc] at h1
    obtain ⟨r2, h2⟩ := processContent_events_ext env cfg
      (logEvent (recordCall ctx (ProviderCall.fetchUrl result.href))
        (LogEvent.scrape result.href ("success"))) query
      (env.fetchProv ctx.calls.length result.href)
    rw [hpc] at h2
    simp only [logEvent, recordCall] at hpc h1 h2
    constructor
    · by_cases hl : 0 < processed.learnings.length <;>
        simp [contentStep, hlen, hne, hpc, hl, logEvent, recordCall, h1]
    · by_cases hl : 0 < processed.learnings.length
      · refine ⟨r2 ++ [LogEvent.learnings result.href processed.learnings.length
          processed.learnings], ?_⟩
        simp [contentStep, hlen, hne, hpc, hl, logEvent, recordCall, h2]
      · refine ⟨r2, ?_⟩
        simp [contentStep, hlen, hne, hpc, hl, logEvent, recordCall, h2]

/-- Witness for C7: a 4-character page is discarded with a failed scrape and
no extraction call. -/
theorem contentStep_spec_witness :
    contentStep fetchEnv cfgEx initialTrace ("q") ⟨("t"), ("https://short.example/a"), ("b")⟩ =
      (logEvent (recordCall initialTrace
          (ProviderCall.fetchUrl (("https://short.example/a") : String)))
        (LogEvent.scrape ("https://short.example/a") ("failed")), none) :=
  (contentStep_spec fetchEnv cfgEx initialTrace ("q")
    ⟨("t"), ("https://short.example/a"), ("b")⟩).1 (by decide)

/-- Helper: the structural fuel of `researchAux` is irrelevant once it covers
the (non-negative part of the) current depth, so `researchAux` really
computes `_researchRecursive`. -/
theorem researchAux_fuel_irrel (env : Env) (cfg : ResearchConfig) :
    ∀ (fuel fuel2 : Nat) (d : Int) (p : String) (ctx : RunTrace),
      d.toNat ≤ fuel → d.toNat ≤ fuel2 →
      researchAux env cfg fuel d p ctx = researchAux env cfg fuel2 d p ctx := by
  intro fuel
  induction fuel with
  | zero =>
    intro fuel2 d p ctx h1 h2
    have hd : d ≤ 0 := by omega
    cases fuel2 with
    | zero => rfl
    | succ f2 => simp [researchAux, hd]
  | succ f ih =>
    intro fuel2 d p ctx h1 h2
    cases fuel2 with
    | zero =>
      have hd : d ≤ 0 := by omega
      simp [researchAux, hd]
    | succ f2 =>
      by_cases hd : d ≤ 0
      · simp [researchAux, hd]
      · have hfun : (fun c q => researchAux env cfg f (d - 1) q c) =
            (fun c q => researchAux env cfg f2 (d - 1) q c) := by
          funext c q
          exact ih f2 (d - 1) q c (by omega) (by omega)
        simp only [researchAux]
        rw [if_neg hd, if_neg hd]
        rcases hb : researchBatch env cfg ctx p d with ⟨ctx1, fus⟩
        simp only [hb]
        by_cases hcond : 1 < d ∧ 0 < fus.length
        · rw [if_pos hcond, if_pos hcond]
          rw [show (fun c q => researchAux env cfg f (d - 1) q c) =
              (fun c q => researchAux env cfg f2 (d - 1) q c) from hfun]
        · rw [if_neg hcond, if_neg hcond]

/-- C5: for positive depth, `_researchRecursive` runs one batch and then
recurses exactly when `currentDepth > 1` and the batch produced at least one
follow-up question; the recursion runs over exactly the first `breadth`
collected follow-up questions, in order, each at depth `currentDepth - 1`,
and in every other case the batch result is returned with no recursion. -/
theorem researchRecursive_recursion_spec (env : Env) (cfg : ResearchConfig) (prompt : String)
    (ctx : RunTrace) (d : Int) (hd : 0 < d) :
    researchRecursive env cfg prompt d ctx =
      (if 1 < d ∧ 0 < (researchBatch env cfg ctx prompt d).2.length then
        ((researchBatch env cfg ctx prompt d).2.take cfg.breadth).foldl
          (fun c p => researchRecursive env cfg p (d - 1) c)
          (researchBatch env cfg ctx prompt d).1
      else (researchBatch env cfg ctx prompt d).1) := by
  obtain ⟨k, hk⟩ : ∃ k, d.toNat = k + 1 := ⟨d.toNat - 1, by omega⟩
  unfold researchRecursive
  rw [hk]
  simp only [researchAux]
  rw [if_neg (by omega)]
  rcases hb : researchBatch env cfg ctx prompt d with ⟨ctx1, fus⟩
  simp only [hb]
  have hfun : (fun c p => researchAux env cfg k (d - 1) p c) =
      (fun c p => researchRecursive env cfg p (d - 1) c) := by
    funext c p
    unfold researchRecursive
    exact researchAux_fuel_irrel env cfg k (d - 1).toNat (d - 1) p c (by omega) (by omega)
  rw [hfun]
  rfl

/-- Witness for C5 at depth 2 on the trivial environment. -/
theorem researchRecursive_recursion_spec_witness :
    researchRecursive trivialEnv cfgEx ("p") 2 initialTrace =
      (if 1 < (2 : Int) ∧ 0 < (researchBatch trivialEnv cfgEx initialTrace ("p") 2).2.length then
        ((researchBatch trivialEnv cfgEx initialTrace ("p") 2).2.take cfgEx.breadth).foldl
          (fun c p => researchRecursive trivialEnv cfgEx p (2 - 1) c)
          (researchBatch trivialEnv cfgEx initialTrace ("p") 2).1
      else (researchBatch trivialEnv cfgEx initialTrace ("p") 2).1) :=
  researchRecursive_recursion_spec trivialEnv cfgEx ("p") initialTrace 2 (by decide)

/-- Helper: adding to the visited set preserves freedom from duplicates. -/
theorem setAdd_nodup (l : List String) (x : String) (h : l.Nodup) : (setAdd l x).Nodup := by
  unfold setAdd
  split
  · exact h
  · rename_i hx
    refine List.Nodup.append h (List.nodup_singleton x) ?_
    intro a ha hax
    rw [List.mem_singleton] at hax
    subst hax
    exact hx ha

/-- Helper: the visited set only grows at the end. -/
theorem setAdd_ext (l : List String) (x : String) : ∃ t, setAdd l x = l ++ t := by
  unfold setAdd
  split
  · exact ⟨[], by simp⟩
  · exact ⟨[x], rfl⟩

/-- Helper: the added URL is a member afterwards. -/
theorem mem_setAdd_self (l : List String) (x : String) : x ∈ setAdd l x := by
  unfold setAdd
  split
  · assumption
  · simp

/-- Helper: membership persists through `setAdd`. -/
theorem mem_setAdd_of_mem (l : List String) (x y : String) (h : y ∈ l) : y ∈ setAdd l x := by
  unfold setAdd
  split
  · exact h
  · simp [h]

/-- Helper: folding `setAdd` over result hrefs preserves freedom from
duplicates. -/
theorem foldl_setAdd_nodup (rs : List SearchResult) :
    ∀ l, l.Nodup → (rs.foldl (fun vs r => setAdd vs r.href) l).Nodup := by
  induction rs with
  | nil => intro l h; exact h
  | cons r rest ih => intro l h; exact ih _ (setAdd_nodup _ _ h)

/-- Helper: folding `setAdd` only appends. -/
theorem foldl_setAdd_ext (rs : List SearchResult) :
    ∀ l, ∃ t, rs.foldl (fun vs r => setAdd vs r.href) l = l ++ t := by
  induction rs with
  | nil => intro l; exact ⟨[], by simp⟩
  | cons r rest ih =>
    intro l
    obtain ⟨t1, h1⟩ := setAdd_ext l r.href
    obtain ⟨t2, h2⟩ := ih (setAdd l r.href)
    refine ⟨t1 ++ t2, ?_⟩
    simp only [List.foldl_cons]
    rw [h2, h1, List.append_assoc]

/-- Helper: initial members persist through the fold. -/
theorem mem_foldl_setAdd_of_mem (rs : List SearchResult) :
    ∀ l y, y ∈ l → y ∈ rs.foldl (fun vs r => setAdd vs r.href) l := by
  induction rs with
  | nil => intro l y h; exact h
  | cons r rest ih => intro l y h; exact ih _ _ (mem_setAdd_of_mem _ _ _ h)

/-- Helper: every folded href is a member afterwards. -/
theorem mem_foldl_setAdd (rs : List SearchResult) :
    ∀ l r, r ∈ rs → r.href ∈ rs.foldl (fun vs r => setAdd vs r.href) l := by
  induction rs with
  | nil => intro l r h; cases h
  | cons r0 rest ih =>
    intro l r h
    rcases List.mem_cons.mp h with h | h
    · subst h
      exact mem_foldl_setAdd_of_mem rest _ _ (mem_setAdd_self _ _)
    · exact ih _ _ h

/-- Helper: one search task keeps the visited set duplicate-free, only
appends to it, and every admitted result href was not yet visited and is
visited afterwards. -/
theorem searchStep_dedup (env : Env) (cfg : ResearchConfig) (ctx : RunTrace) (query : String) :
    (ctx.st.visitedUrls.Nodup → (searchStep env cfg ctx query).1.st.visitedUrls.Nodup) ∧
    (∃ t, (searchStep env cfg ctx query).1.st.visitedUrls = ctx.st.visitedUrls ++ t) ∧
    (∀ r ∈ (searchStep env cfg ctx query).2.2,
      r.href ∉ ctx.st.visitedUrls ∧
      r.href ∈ (searchStep env cfg ctx query).1.st.visitedUrls) := by
  refine ⟨?_, ?_, ?_⟩
  · intro h
    exact foldl_setAdd_nodup _ _ h
  · exact foldl_setAdd_ext _ _
  · intro r hr
    constructor
    · have hr2 : r ∈ (env.searchProv ctx.calls.length query).filter
          (fun r => !(ctx.st.visitedUrls.contains r.href) && engineScreener.isAllowed r.href) :=
        List.mem_of_mem_take hr
      have hp := (List.mem_filter.mp hr2).2
      simp at hp
      intro hmem
      exact hp.1 hmem
    · exact mem_foldl_setAdd _ _ _ hr

/-- C2 as amended: deduplication in the search phase is by the exact raw
href string, not by a canonical form (no URL canonicalisation exists in the
code): across one search phase starting from a duplicate-free visited set,
the visited set stays duplicate-free and only grows, and every result
admitted for fetching had an href not yet in the visited set at the start of
the phase and has it in the visited set afterwards. -/
theorem searchPhase_exact_dedup (env : Env) (cfg : ResearchConfig) :
    ∀ (queries : List String) (ctx : RunTrace), ctx.st.visitedUrls.Nodup →
      (searchPhase env cfg ctx queries).1.st.visitedUrls.Nodup ∧
      (∃ t, (searchPhase env cfg ctx queries).1.st.visitedUrls = ctx.st.visitedUrls ++ t) ∧
      (∀ q rs, (q, rs) ∈ (searchPhase env cfg ctx queries).2 → ∀ r ∈ rs,
        r.href ∉ ctx.st.visitedUrls ∧
        r.href ∈ (searchPhase env cfg ctx queries).1.st.visitedUrls) := by
  intro queries
  induction queries with
  | nil =>
    intro ctx h
    exact ⟨h, ⟨[], by simp [searchPhase]⟩, by simp [searchPhase]⟩
  | cons q qs ih =>
    intro ctx h
    rcases hstep : searchStep env cfg ctx q with ⟨ctx1, pair⟩
    rcases hphase : searchPhase env cfg ctx1 qs with ⟨ctx2, rest⟩
    have hgoal : searchPhase env cfg ctx (q :: qs) = (ctx2, pair :: rest) := by
      simp [searchPhase, hstep, hphase]
    obtain ⟨sd1, sd2, sd3⟩ := searchStep_dedup env cfg ctx q
    rw [hstep] at sd1 sd2 sd3
    dsimp only at sd1 sd2 sd3
    obtain ⟨ph1, ph2, ph3⟩ := ih ctx1 (sd1 h)
    rw [hphase] at ph1 ph2 ph3
    dsimp only at ph1 ph2 ph3
    obtain ⟨t1, hext1⟩ := sd2
    obtain ⟨t2, hext2⟩ := ph2
    rw [hgoal]
    dsimp only
    refine ⟨ph1, ⟨t1 ++ t2, by rw [hext2, hext1, List.append_assoc]⟩, ?_⟩
    intro q0 rs0 hmem r hr
    rcases List.mem_cons.mp hmem with hmem | hmem
    · have hrs : rs0 = pair.2 := congrArg Prod.snd hmem
      have hadm := sd3 r (by rw [← hrs]; exact hr)
      refine ⟨hadm.1, ?_⟩
      rw [hext2]
      exact List.mem_append.mpr (Or.inl hadm.2)
    · have hadm := ph3 q0 rs0 hmem r hr
      refine ⟨?_, hadm.2⟩
      intro hvis
      apply hadm.1
      rw [hext1]
      exact List.mem_append.mpr (Or.inl hvis)

/-- Witness for C2 as amended on the concrete one-query environment. -/
theorem searchPhase_exact_dedup_witness :
    (searchPhase canonEnv cfgEx canonTrace [("q")]).1.st.visitedUrls.Nodup ∧
    (∃ t, (searchPhase canonEnv cfgEx canonTrace [("q")]).1.st.visitedUrls =
      canonTrace.st.visitedUrls ++ t) ∧
    (∀ q rs, (q, rs) ∈ (searchPhase canonEnv cfgEx canonTrace [("q")]).2 → ∀ r ∈ rs,
      r.href ∉ canonTrace.st.visitedUrls ∧
      r.href ∈ (searchPhase canonEnv cfgEx canonTrace [("q")]).1.st.visitedUrls) :=
  searchPhase_exact_dedup canonEnv cfgEx [("q")] canonTrace (by decide)

/-- C2 counterexample: search deduplication does not canonicalise.  With
`https://example.org/page` already visited, a result differing only by host
letter-case (`https://Example.org/page`) is still admitted for fetching, and
an exact duplicate inside the same result batch is admitted twice; the
visited set ends up holding both case-variants of the same page. -/
theorem searchPhase_admits_canonical_variants :
    (searchPhase canonEnv cfgEx canonTrace [("q")]).2 =
      [(("q"),
        [⟨("t1"), ("https://Example.org/page"), ("b1")⟩,
         ⟨("t2"), ("https://news.example.net/a"), ("b2")⟩,
         ⟨("t3"), ("https://news.example.net/a"), ("b3")⟩])] ∧
    (searchPhase canonEnv cfgEx canonTrace [("q")]).1.st.visitedUrls =
      [("https://example.org/page"), ("https://Example.org/page"),
       ("https://news.example.net/a")] := ⟨rfl, rfl⟩

/-- C3: the tolerant reader tries three stages in order — direct parse of
the trimmed input, then each fenced code block in order of appearance, then
the first bracket-balanced slice found while tracking string-literal state
and escapes — each later stage only when the earlier ones fail, and it fails
only when no stage recovers a value; a fenced `json` block yields its
interior object, an object embedded in prose is recovered, and an input with
no JSON fails. -/
theorem parseModelJsonOutput_spec :
    (∀ raw v, jsonParseChars (jsTrim raw.data) = some v →
      parseModelJsonOutput raw = some v) ∧
    (∀ raw v, jsonParseChars (jsTrim raw.data) = none →
      tryBlocks (fencedBlocks (jsTrim raw.data)) = some v →
      parseModelJsonOutput raw = some v) ∧
    (∀ raw, jsonParseChars (jsTrim raw.data) = none →
      tryBlocks (fencedBlocks (jsTrim raw.data)) = none →
      parseModelJsonOutput raw =
        (extractFirstJsonValue (jsTrim raw.data)).bind jsonParseChars) ∧
    (∀ raw, parseModelJsonOutput raw = none →
      jsonParseChars (jsTrim raw.data) = none ∧
      tryBlocks (fencedBlocks (jsTrim raw.data)) = none ∧
      (extractFirstJsonValue (jsTrim raw.data)).bind jsonParseChars = none) ∧
    parseModelJsonOutput exFenced = some exFencedVal ∧
    parseModelJsonOutput exProse = some exProseVal ∧
    parseModelJsonOutput ("not json at all") = none := by
  refine ⟨?_, ?_, ?_, ?_, rfl, ?_, rfl⟩
  · intro raw v h
    simp [parseModelJsonOutput, parseModelJsonOutputChars, h]
  · intro raw v h1 h2
    simp [parseModelJsonOutput, parseModelJsonOutputChars, h1, h2]
  · intro raw h1 h2
    simp only [parseModelJsonOutput, parseModelJsonOutputChars, h1, h2]
    cases h3 : extractFirstJsonValue (jsTrim raw.data) <;> simp [h3]
  · intro raw h
    cases h1 : jsonParseChars (jsTrim raw.data) with
    | some v => simp [parseModelJsonOutput, parseModelJsonOutputChars, h1] at h
    | none =>
      cases h2 : tryBlocks (fencedBlocks (jsTrim raw.data)) with
      | some v => simp [parseModelJsonOutput, parseModelJsonOutputChars, h1, h2] at h
      | none =>
        refine ⟨rfl, rfl, ?_⟩
        simp only [parseModelJsonOutput, parseModelJsonOutputChars, h1, h2] at h
        cases h3 : extractFirstJsonValue (jsTrim raw.data) with
        | some s =>
          rw [h3] at h
          exact h
        | none => simp [h3]
  · have h0 : jsTrim exProse.data = exProse.data := rfl
    have h1 : jsonParseChars exProse.data = none := rfl
    have h2 : fencedBlocks exProse.data = [] := rfl
    have h3 : extractFirstJsonValue exProse.data = some exProseSlice.data := rfl
    have h4 : jsonParseChars exProseSlice.data = some exProseVal := rfl
    simp only [parseModelJsonOutput, parseModelJsonOutputChars, h0, h1, h2, h3, h4, tryBlocks]

/-- Witness for C3: a directly parseable object goes through stage 1. -/
theorem parseModelJsonOutput_spec_witness :
    parseModelJsonOutput ("\x7b\"ok\":true\x7d") =
      some (JsonValue.jobj [(("ok"), JsonValue.jbool true)]) :=
  parseModelJsonOutput_spec.1 ("\x7b\"ok\":true\x7d")
    (JsonValue.jobj [(("ok"), JsonValue.jbool true)]) rfl
